import Mathlib

/-!
# Verification of the image-tools compositing component

Shallow embedding of `src/pages/Home.vue` (the stitching component of
xiaodong2008/image-tools).  The component keeps a handful of reactive
references (`uploadedImages`, `stitchedImageUrl`, `isStitching`,
`layoutSelected`, `backgroundSelected`, `backgroundColor`,
`adjustSizeSelected`); we model them as fields of an `AppState` record and
each event handler (`stitchImages`, `removeImage`, `moveImageUp`,
`moveImageDown`, `downloadStitchedImage`) as a function from states to
states, paired with the list of toast notifications it emits.

Modelling decisions:

* Image dimensions are JavaScript numbers; we idealize them as exact
  rationals (`ℚ`).  The spec itself leaves rounding to the rasterizer
  ("no rounding policy specified beyond rasterizer default"), so the
  integer truncation performed by assigning a float to `canvas.width` is
  outside the model.
* A canvas is modelled by its dimensions plus the ordered list of drawing
  commands issued against its 2d context (`fillRect` / `drawImage`); the
  PNG data URL produced by `canvas.toDataURL` is identified with the
  canvas content itself, so the string-valued `stitchedImageUrl` ref
  becomes an `Option Composite` (`none` stands for the empty string).
* `document.createElement("canvas").getContext("2d")` may return `null`;
  the environment `Env` records, for each `getContext` call site, whether
  a context is obtainable: `mainCtx` for the output canvas created at the
  top of `stitchImages`, and `resizeCtx i` for the scratch canvas created
  inside the resize `map` for the i-th image.
* Decoding (`new Image()` + `onload`) always yields the recorded
  dimensions, so the `Promise.all` join is the identity on our image
  records.
* JavaScript array writes `arr[i] = x` coincide with `List.set` for
  indices below the length; the move handlers are stated and proved on
  that domain (the indices the template can produce).
-/

namespace ImageTools

/-- A decoded image: the pixel dimensions recorded when the upload was
decoded (`img.width` / `img.height`).  Idealized as exact rationals. -/
structure Img where
  width : ℚ
  height : ℚ
  deriving DecidableEq, Repr

/-- The `layoutSelected` ref: one of the strings "Horizontal" and
"Vertical". -/
inductive Layout
  | Horizontal
  | Vertical
  deriving DecidableEq, Repr

/-- The `adjustSizeSelected` ref: one of the strings "None", "Min",
"Max". -/
inductive SizePolicy
  | None
  | Min
  | Max
  deriving DecidableEq, Repr

/-- The `backgroundSelected` ref: one of the strings "Transparent" and
"Color". -/
inductive BgMode
  | Transparent
  | Color
  deriving DecidableEq, Repr

/-- A drawing command issued against the output canvas 2d context. -/
inductive DrawOp
  | fillRect (color : String) (x y w h : ℚ)
  | drawImage (img : Img) (x y : ℚ)
  deriving DecidableEq, Repr

/-- The composited output: canvas dimensions plus the ordered list of
drawing commands rendered onto it (stands for the encoded PNG data URL as
well). -/
structure Composite where
  width : ℚ
  height : ℚ
  ops : List DrawOp
  deriving DecidableEq, Repr

/-- Toast notifications emitted by the handlers. -/
inductive Event
  | insufficientImages
  | stitchingFailed (detail : String)
  | noImage
  | downloadStarted
  deriving DecidableEq, Repr

/-- The browser environment: whether each `getContext("2d")` call site can
obtain a rasterization context.  `mainCtx` is the output canvas created at
the top of `stitchImages`; `resizeCtx i` is the scratch canvas created
inside the resize `map` for the image at position `i`. -/
structure Env where
  mainCtx : Bool
  resizeCtx : Nat → Bool

/-- The component's reactive state. -/
structure AppState where
  uploadedImages : List Img
  stitchedOutput : Option Composite
  isStitching : Bool
  layoutSelected : Layout
  backgroundSelected : BgMode
  backgroundColor : String
  adjustSizeSelected : SizePolicy
  deriving DecidableEq, Repr

/-- `Math.min(...xs)` on a non-empty spread (the code only evaluates it
when at least 2 images exist). -/
def listMin : List ℚ → ℚ
  | [] => 0
  | x :: xs => xs.foldl min x

/-- `Math.max(...xs)` on a non-empty spread. -/
def listMax : List ℚ → ℚ
  | [] => 0
  | x :: xs => xs.foldl max x

/-- The callback of the resize `map` (Home.vue lines 134-181): if the
scratch canvas yields no context the original image is returned; otherwise
the target cross-axis extent is the min/max over all inputs and the
along-axis extent is scaled by the aspect ratio
(`newWidth = targetHeight * aspectRatio` for Horizontal,
`newHeight = targetWidth / aspectRatio` for Vertical). -/
def adjustOne (env : Env) (layout : Layout) (policy : SizePolicy)
    (images : List Img) (i : Nat) (img : Img) : Img :=
  if env.resizeCtx i = false then img
  else
    let targetWidth :=
      if layout = Layout.Horizontal then img.width
      else if policy = SizePolicy.Min then listMin (images.map Img.width)
      else if policy = SizePolicy.Max then listMax (images.map Img.width)
      else img.width
    let targetHeight :=
      if layout = Layout.Horizontal then
        if policy = SizePolicy.Min then listMin (images.map Img.height)
        else if policy = SizePolicy.Max then listMax (images.map Img.height)
        else img.height
      else img.height
    let aspectRatio := img.width / img.height
    if layout = Layout.Horizontal then
      { width := targetHeight * aspectRatio, height := targetHeight }
    else
      { width := targetWidth, height := targetWidth / aspectRatio }

/-- `images.map(...)` of the resize pass, with the element position
threaded through so that `Env.resizeCtx` can be consulted per scratch
canvas. -/
def adjustFrom (env : Env) (layout : Layout) (policy : SizePolicy)
    (images : List Img) (i : Nat) : List Img → List Img
  | [] => []
  | img :: rest =>
      adjustOne env layout policy images i img ::
        adjustFrom env layout policy images (i + 1) rest

/-- The resize pass (Home.vue lines 130-183): skipped entirely when the
policy is "None" (`adjustedImages = images`). -/
def adjustImages (env : Env) (layout : Layout) (policy : SizePolicy)
    (images : List Img) : List Img :=
  if policy = SizePolicy.None then images
  else adjustFrom env layout policy images 0 images

/-- `totalWidth` of the output canvas (Home.vue lines 186-197):
`reduce((sum, img) => sum + img.width, 0)` for Horizontal, `Math.max` of
widths for Vertical. -/
def totalWidth (layout : Layout) (adjusted : List Img) : ℚ :=
  match layout with
  | Layout.Horizontal => adjusted.foldl (fun sum img => sum + img.width) 0
  | Layout.Vertical => listMax (adjusted.map Img.width)

/-- `totalHeight` of the output canvas: `Math.max` of heights for
Horizontal, sum of heights for Vertical. -/
def totalHeight (layout : Layout) (adjusted : List Img) : ℚ :=
  match layout with
  | Layout.Horizontal => listMax (adjusted.map Img.height)
  | Layout.Vertical => adjusted.foldl (fun sum img => sum + img.height) 0

/-- Color normalization before the background fill (Home.vue lines
207-212): an empty (falsy) color falls back to white, and a missing `#`
prefix is prepended. -/
def normalizeColor (c : String) : String :=
  let color := if c = "" then ("#ffffff") else c
  if color.startsWith ("#") then color else ("#") ++ color

/-- The background fill (Home.vue lines 204-217): when the background mode
is "Color" the whole canvas is filled with the normalized color before any
image is drawn; when "Transparent" no fill is issued. -/
def backgroundOps (bgMode : BgMode) (bgColor : String) (w h : ℚ) :
    List DrawOp :=
  match bgMode with
  | BgMode.Color => [DrawOp.fillRect (normalizeColor bgColor) 0 0 w h]
  | BgMode.Transparent => []

/-- The placement loop (Home.vue lines 220-233): each image is drawn at the
accumulated offset `off` along the concatenation axis and at 0 on the
cross-axis, and the offset advances by the image's along-axis extent. -/
def placeFrom (layout : Layout) (off : ℚ) : List Img → List DrawOp
  | [] => []
  | img :: rest =>
      match layout with
      | Layout.Horizontal =>
          DrawOp.drawImage img off 0 ::
            placeFrom Layout.Horizontal (off + img.width) rest
      | Layout.Vertical =>
          DrawOp.drawImage img 0 off ::
            placeFrom Layout.Vertical (off + img.height) rest

/-- The placement pass starting from `currentX = currentY = 0`. -/
def placeImages (layout : Layout) (adjusted : List Img) : List DrawOp :=
  placeFrom layout 0 adjusted

/-- `stitchImages` (Home.vue lines 97-253).  Fewer than 2 images: an
"Insufficient Images" toast and an early return before the busy flag is
touched.  Otherwise `isStitching` is set, and the `try` block runs: a
missing context on the output canvas throws, the exception is caught and
reported, and the `finally` clause clears the busy flag; on success the
resize pass, canvas-bounds computation, background fill, placement loop and
PNG encoding produce the new `stitchedOutput`, and `finally` clears the
busy flag as well. -/
def stitchImages (env : Env) (s : AppState) : AppState × List Event :=
  if s.uploadedImages.length < 2 then
    (s, [Event.insufficientImages])
  else if env.mainCtx = false then
    ({ s with isStitching := false },
      [Event.stitchingFailed ("Failed to get canvas context")])
  else
    let adjusted :=
      adjustImages env s.layoutSelected s.adjustSizeSelected s.uploadedImages
    let w := totalWidth s.layoutSelected adjusted
    let h := totalHeight s.layoutSelected adjusted
    let ops :=
      backgroundOps s.backgroundSelected s.backgroundColor w h ++
        placeImages s.layoutSelected adjusted
    ({ s with
        stitchedOutput := some { width := w, height := h, ops := ops },
        isStitching := false },
      [])

/-- `removeImage` (Home.vue lines 299-310): splice the image out, clear the
output, reset background and size policy only when no image remains, then
restitch. -/
def removeImage (env : Env) (index : Nat) (s : AppState) :
    AppState × List Event :=
  let images := s.uploadedImages.eraseIdx index
  let s1 : AppState :=
    if images.length = 0 then
      { s with
          uploadedImages := images,
          stitchedOutput := none,
          backgroundSelected := BgMode.Transparent,
          adjustSizeSelected := SizePolicy.None }
    else
      { s with uploadedImages := images, stitchedOutput := none }
  stitchImages env s1

/-- Reading `arr[i]` for an integer index: `undefined` (here `none`) when
the index is negative or at least the length. -/
def getAt (l : List Img) (i : Int) : Option Img :=
  if 0 ≤ i then l.get? i.toNat else none

/-- Writing `arr[i] = x` for an index below the length (the only writes the
move handlers perform on template-produced indices). -/
def setAt (l : List Img) (i : Int) (x : Img) : List Img :=
  if 0 ≤ i then l.set i.toNat x else l

/-- The three-assignment swap `temp = arr[i]; arr[i] = arr[j];
arr[j] = temp` when both cells exist. -/
def swapJs (l : List Img) (i j : Int) : List Img :=
  match getAt l i, getAt l j with
  | some a, some b => setAt (setAt l i b) j a
  | _, _ => l

/-- `moveImageUp` (Home.vue lines 279-287): guarded by `index > 0`; swaps
the image with its predecessor, clears the output and restitches. -/
def moveImageUp (env : Env) (index : Int) (s : AppState) :
    AppState × List Event :=
  if 0 < index then
    stitchImages env
      { s with
          uploadedImages := swapJs s.uploadedImages index (index - 1),
          stitchedOutput := none }
  else
    (s, [])

/-- `moveImageDown` (Home.vue lines 289-297): guarded by
`index < length - 1`; swaps the image with its successor, clears the output
and restitches. -/
def moveImageDown (env : Env) (index : Int) (s : AppState) :
    AppState × List Event :=
  if index < (s.uploadedImages.length : Int) - 1 then
    stitchImages env
      { s with
          uploadedImages := swapJs s.uploadedImages index (index + 1),
          stitchedOutput := none }
  else
    (s, [])

/-- The anchor element created by `downloadStitchedImage`: its `href` (the
output data URL, identified with the composite) and its `download`
filename. -/
structure DownloadAction where
  href : Composite
  filename : String
  deriving DecidableEq, Repr

/-- `downloadStitchedImage` (Home.vue lines 255-277): an empty (falsy)
output URL yields a "No Image" toast and no link; otherwise a link named
`stitched-image-<Date.now()>.png` is created and clicked.  `now` is the
`Date.now()` timestamp. -/
def downloadStitchedImage (now : Nat) (s : AppState) :
    AppState × Option DownloadAction × List Event :=
  match s.stitchedOutput with
  | none => (s, none, [Event.noImage])
  | some c =>
      (s,
        some { href := c,
               filename := ("stitched-image-") ++ toString now ++ (".png") },
        [Event.downloadStarted])

/-! ### Concrete instances used by witnesses and counterexamples -/

/-- An environment in which every `getContext("2d")` call succeeds. -/
def envAll : Env := { mainCtx := true, resizeCtx := fun _ => true }

/-- An environment in which the output canvas yields no context. -/
def envNoMain : Env := { mainCtx := false, resizeCtx := fun _ => true }

/-- An environment in which the scratch canvas of the first image yields no
context while every other `getContext` call succeeds. -/
def envNoResize0 : Env :=
  { mainCtx := true,
    resizeCtx := fun i =>
      match i with
      | 0 => false
      | _ + 1 => true }

/-- The 100×50 image of the spec scenarios. -/
def imgA : Img := { width := 100, height := 50 }

/-- The 80×60 image of the spec scenarios. -/
def imgB : Img := { width := 80, height := 60 }

/-- The scenario state: images [100×50, 80×60], Horizontal layout,
Transparent background, size policy "None". -/
def scenarioState : AppState :=
  { uploadedImages := [imgA, imgB],
    stitchedOutput := none,
    isStitching := false,
    layoutSelected := Layout.Horizontal,
    backgroundSelected := BgMode.Transparent,
    backgroundColor := ("#ffffff"),
    adjustSizeSelected := SizePolicy.None }

/-- A state holding two images and a stored output, with a colored
background and "Max" size policy selected (as after a successful composite
with those settings). -/
def coloredState : AppState :=
  { uploadedImages := [imgA, imgB],
    stitchedOutput := some { width := 200, height := 60, ops := [] },
    isStitching := false,
    layoutSelected := Layout.Horizontal,
    backgroundSelected := BgMode.Color,
    backgroundColor := ("#ff0000"),
    adjustSizeSelected := SizePolicy.Max }

/-- A state with images 10×40 and 30×20, Horizontal layout and "Min" size
policy (so a resize is required for the first image). -/
def minPolicyState : AppState :=
  { uploadedImages := [{ width := 10, height := 40 },
                       { width := 30, height := 20 }],
    stitchedOutput := none,
    isStitching := false,
    layoutSelected := Layout.Horizontal,
    backgroundSelected := BgMode.Transparent,
    backgroundColor := ("#ffffff"),
    adjustSizeSelected := SizePolicy.Min }

end ImageTools

namespace ImageTools

/-! ## Helper lemmas -/

lemma foldl_add_eq_sum (f : Img → ℚ) :
    ∀ (l : List Img) (a : ℚ),
      l.foldl (fun sum img => sum + f img) a = a + (l.map f).sum := by
  intro l
  induction l with
  | nil => simp
  | cons x xs ih =>
      intro a
      simp [ih, add_assoc]

lemma foldl_max_mem : ∀ (l : List ℚ) (a : ℚ), l.foldl max a ∈ a :: l := by
  intro l
  induction l with
  | nil => simp
  | cons x xs ih =>
      intro a
      have h := ih (max a x)
      rcases List.mem_cons.mp h with h | h
      · rcases max_choice a x with hm | hm
        · simp only [List.foldl_cons]
          rw [h, hm]
          exact List.mem_cons_self _ _
        · simp only [List.foldl_cons]
          rw [h, hm]
          exact List.mem_cons_of_mem _ (List.mem_cons_self _ _)
      · exact List.mem_cons_of_mem _ (List.mem_cons_of_mem _ h)

lemma le_foldl_max : ∀ (l : List ℚ) (a : ℚ),
    a ≤ l.foldl max a ∧ ∀ x ∈ l, x ≤ l.foldl max a := by
  intro l
  induction l with
  | nil => simp
  | cons y ys ih =>
      intro a
      obtain ⟨h1, h2⟩ := ih (max a y)
      simp only [List.foldl_cons]
      refine ⟨le_trans (le_max_left a y) h1, ?_⟩
      intro x hx
      rcases List.mem_cons.mp hx with rfl | hx
      · exact le_trans (le_max_right a x) h1
      · exact h2 x hx

lemma listMax_mem {l : List ℚ} (h : l ≠ []) : listMax l ∈ l := by
  cases l with
  | nil => exact absurd rfl h
  | cons x xs => exact foldl_max_mem xs x

lemma le_listMax {l : List ℚ} {x : ℚ} (h : x ∈ l) : x ≤ listMax l := by
  cases l with
  | nil => simp at h
  | cons y ys =>
      rcases List.mem_cons.mp h with h | h
      · exact h ▸ (le_foldl_max ys y).1
      · exact (le_foldl_max ys y).2 x h

lemma foldl_min_mem : ∀ (l : List ℚ) (a : ℚ), l.foldl min a ∈ a :: l := by
  intro l
  induction l with
  | nil => simp
  | cons x xs ih =>
      intro a
      have h := ih (min a x)
      rcases List.mem_cons.mp h with h | h
      · rcases min_choice a x with hm | hm
        · simp only [List.foldl_cons]
          rw [h, hm]
          exact List.mem_cons_self _ _
        · simp only [List.foldl_cons]
          rw [h, hm]
          exact List.mem_cons_of_mem _ (List.mem_cons_self _ _)
      · exact List.mem_cons_of_mem _ (List.mem_cons_of_mem _ h)

lemma foldl_min_le : ∀ (l : List ℚ) (a : ℚ),
    l.foldl min a ≤ a ∧ ∀ x ∈ l, l.foldl min a ≤ x := by
  intro l
  induction l with
  | nil => simp
  | cons y ys ih =>
      intro a
      obtain ⟨h1, h2⟩ := ih (min a y)
      simp only [List.foldl_cons]
      refine ⟨le_trans h1 (min_le_left a y), ?_⟩
      intro x hx
      rcases List.mem_cons.mp hx with rfl | hx
      · exact le_trans h1 (min_le_right a x)
      · exact h2 x hx

lemma listMin_mem {l : List ℚ} (h : l ≠ []) : listMin l ∈ l := by
  cases l with
  | nil => exact absurd rfl h
  | cons x xs => exact foldl_min_mem xs x

lemma listMin_le {l : List ℚ} {x : ℚ} (h : x ∈ l) : listMin l ≤ x := by
  cases l with
  | nil => simp at h
  | cons y ys =>
      rcases List.mem_cons.mp h with h | h
      · exact h ▸ (foldl_min_le ys y).1
      · exact (foldl_min_le ys y).2 x h

lemma adjustFrom_length (env : Env) (layout : Layout) (policy : SizePolicy)
    (images : List Img) :
    ∀ (l : List Img) (i : Nat),
      (adjustFrom env layout policy images i l).length = l.length := by
  intro l
  induction l with
  | nil => intro i; rfl
  | cons x xs ih => intro i; simp [adjustFrom, ih]

lemma adjustImages_length (env : Env) (layout : Layout) (policy : SizePolicy)
    (images : List Img) :
    (adjustImages env layout policy images).length = images.length := by
  unfold adjustImages
  split
  · rfl
  · exact adjustFrom_length env layout policy images images 0

lemma adjustFrom_get? (env : Env) (layout : Layout) (policy : SizePolicy)
    (images : List Img) :
    ∀ (l : List Img) (i k : Nat),
      (adjustFrom env layout policy images i l).get? k =
        (l.get? k).map (adjustOne env layout policy images (i + k)) := by
  intro l
  induction l with
  | nil => intro i k; rfl
  | cons x xs ih =>
      intro i k
      cases k with
      | zero => rfl
      | succ k =>
          simp only [adjustFrom, List.get?_cons_succ, ih (i + 1) k]
          have h : i + 1 + k = i + (k + 1) := by omega
          rw [h]

lemma placeFrom_length (layout : Layout) :
    ∀ (l : List Img) (off : ℚ), (placeFrom layout off l).length = l.length := by
  intro l
  induction l with
  | nil => intro off; cases layout <;> rfl
  | cons x xs ih =>
      intro off
      cases layout <;> simp [placeFrom, ih]

lemma placeFrom_get?_horizontal :
    ∀ (l : List Img) (off : ℚ) (k : Nat),
      (placeFrom Layout.Horizontal off l).get? k =
        (l.get? k).map (fun img =>
          DrawOp.drawImage img (off + ((l.take k).map Img.width).sum) 0) := by
  intro l
  induction l with
  | nil => intro off k; cases k <;> rfl
  | cons x xs ih =>
      intro off k
      cases k with
      | zero => simp [placeFrom]
      | succ k =>
          simp only [placeFrom, List.get?_cons_succ, ih (off + x.width) k,
            List.take_succ_cons, List.map_cons, List.sum_cons]
          cases xs.get? k <;> simp [add_assoc]

lemma placeFrom_get?_vertical :
    ∀ (l : List Img) (off : ℚ) (k : Nat),
      (placeFrom Layout.Vertical off l).get? k =
        (l.get? k).map (fun img =>
          DrawOp.drawImage img 0 (off + ((l.take k).map Img.height).sum)) := by
  intro l
  induction l with
  | nil => intro off k; cases k <;> rfl
  | cons x xs ih =>
      intro off k
      cases k with
      | zero => simp [placeFrom]
      | succ k =>
          simp only [placeFrom, List.get?_cons_succ, ih (off + x.height) k,
            List.take_succ_cons, List.map_cons, List.sum_cons]
          cases xs.get? k <;> simp [add_assoc]

lemma placeFrom_all_draw (layout : Layout) :
    ∀ (l : List Img) (off : ℚ),
      ∀ op ∈ placeFrom layout off l, ∃ img x y, op = DrawOp.drawImage img x y := by
  intro l
  induction l with
  | nil => intro off op hop; cases layout <;> simp [placeFrom] at hop
  | cons z zs ih =>
      intro off op hop
      cases layout with
      | Horizontal =>
          rcases List.mem_cons.mp hop with h | h
          · exact ⟨z, off, 0, h⟩
          · exact ih (off + z.width) op h
      | Vertical =>
          rcases List.mem_cons.mp hop with h | h
          · exact ⟨z, 0, off, h⟩
          · exact ih (off + z.height) op h

/-- The successful branch of `stitchImages`, written out. -/
lemma stitchImages_success (env : Env) (s : AppState)
    (h2 : 2 ≤ s.uploadedImages.length) (hctx : env.mainCtx = true) :
    stitchImages env s =
      (let adjusted :=
        adjustImages env s.layoutSelected s.adjustSizeSelected s.uploadedImages
      let w := totalWidth s.layoutSelected adjusted
      let h := totalHeight s.layoutSelected adjusted
      ({ s with
          stitchedOutput := some
            { width := w, height := h,
              ops := backgroundOps s.backgroundSelected s.backgroundColor w h ++
                placeImages s.layoutSelected adjusted },
          isStitching := false },
        [])) := by
  have hlen : ¬ s.uploadedImages.length < 2 := by omega
  simp [stitchImages, hlen, hctx]

lemma stitchImages_insufficient (env : Env) (s : AppState)
    (h : s.uploadedImages.length < 2) :
    stitchImages env s = (s, [Event.insufficientImages]) := by
  simp [stitchImages, h]

lemma stitchImages_preserves (env : Env) (s : AppState) :
    (stitchImages env s).1.uploadedImages = s.uploadedImages ∧
    (stitchImages env s).1.layoutSelected = s.layoutSelected ∧
    (stitchImages env s).1.backgroundSelected = s.backgroundSelected ∧
    (stitchImages env s).1.backgroundColor = s.backgroundColor ∧
    (stitchImages env s).1.adjustSizeSelected = s.adjustSizeSelected := by
  by_cases h1 : s.uploadedImages.length < 2
  · simp [stitchImages, h1]
  · cases hc : env.mainCtx <;> simp [stitchImages, h1, hc]

lemma set_set_succ_perm :
    ∀ (l : List Img) (k : Nat) (x y : Img),
      l.get? k = some x → l.get? (k + 1) = some y →
      ((l.set k y).set (k + 1) x).Perm l := by
  intro l
  induction l with
  | nil =>
      intro k x y hx _
      simp at hx
  | cons a t ih =>
      intro k x y hx hy
      cases k with
      | zero =>
          cases t with
          | nil => simp at hy
          | cons b t' =>
              simp only [List.get?_cons_zero, List.get?_cons_succ,
                Option.some.injEq] at hx hy
              have hset : ((a :: b :: t').set 0 y).set 1 x = y :: x :: t' :=
                rfl
              rw [hset, ← hx, ← hy]
              exact List.Perm.swap a b t'
      | succ k =>
          simp only [List.get?_cons_succ] at hx hy
          simp only [List.set]
          exact (ih k x y hx hy).cons a

lemma getAt_of_nonneg {l : List Img} {i : Int} (h : 0 ≤ i) :
    getAt l i = l.get? i.toNat := by
  simp [getAt, h]

lemma setAt_of_nonneg {l : List Img} {i : Int} (x : Img) (h : 0 ≤ i) :
    setAt l i x = l.set i.toNat x := by
  simp [setAt, h]

lemma swapJs_eq_of_some {l : List Img} {i j : Int} {a b : Img}
    (hi : getAt l i = some a) (hj : getAt l j = some b) :
    swapJs l i j = setAt (setAt l i b) j a := by
  unfold swapJs
  rw [hi, hj]

lemma swapJs_perm_up (l : List Img) (i : Int) (h0 : 0 < i)
    (hl : i < (l.length : Int)) : (swapJs l i (i - 1)).Perm l := by
  have h0' : 0 ≤ i := le_of_lt h0
  have h1' : 0 ≤ i - 1 := by omega
  have hklt : i.toNat < l.length := by omega
  have hklt' : (i - 1).toNat < l.length := by omega
  have hk1 : (i - 1).toNat + 1 = i.toNat := by omega
  obtain ⟨a, ha⟩ : ∃ a, l.get? i.toNat = some a := ⟨_, List.get?_eq_get hklt⟩
  obtain ⟨b, hb⟩ : ∃ b, l.get? (i - 1).toNat = some b :=
    ⟨_, List.get?_eq_get hklt'⟩
  have ha' : getAt l i = some a := by rw [getAt_of_nonneg h0']; exact ha
  have hb' : getAt l (i - 1) = some b := by
    rw [getAt_of_nonneg h1']; exact hb
  rw [swapJs_eq_of_some ha' hb', setAt_of_nonneg _ h0', setAt_of_nonneg _ h1']
  rw [← hk1]
  rw [List.set_comm _ _ _ (by omega)]
  refine set_set_succ_perm l (i - 1).toNat b a hb ?_
  rw [hk1]
  exact ha

lemma swapJs_perm_down (l : List Img) (i : Int) (h0 : 0 ≤ i)
    (hl : i < (l.length : Int) - 1) : (swapJs l i (i + 1)).Perm l := by
  have h1' : 0 ≤ i + 1 := by omega
  have hklt : i.toNat < l.length := by omega
  have hklt' : (i + 1).toNat < l.length := by omega
  have hk1 : (i + 1).toNat = i.toNat + 1 := by omega
  obtain ⟨a, ha⟩ : ∃ a, l.get? i.toNat = some a := ⟨_, List.get?_eq_get hklt⟩
  obtain ⟨b, hb⟩ : ∃ b, l.get? (i + 1).toNat = some b :=
    ⟨_, List.get?_eq_get hklt'⟩
  have ha' : getAt l i = some a := by rw [getAt_of_nonneg h0]; exact ha
  have hb' : getAt l (i + 1) = some b := by
    rw [getAt_of_nonneg h1']; exact hb
  rw [swapJs_eq_of_some ha' hb', setAt_of_nonneg _ h0, setAt_of_nonneg _ h1']
  rw [hk1]
  refine set_set_succ_perm l i.toNat a b ha ?_
  rw [← hk1]
  exact hb

lemma adjustImages_get?_of_ne (env : Env) (layout : Layout)
    (policy : SizePolicy) (images : List Img) (hp : policy ≠ SizePolicy.None)
    (k : Nat) (orig : Img) (h : images.get? k = some orig) :
    (adjustImages env layout policy images).get? k =
      some (adjustOne env layout policy images k orig) := by
  unfold adjustImages
  rw [if_neg hp, adjustFrom_get? env layout policy images images 0 k, h]
  simp

/-! ## Claim theorems -/

/-- C4: a composite call with fewer than 2 images signals the
insufficient-input error, attempts no composite, and leaves the whole state
unchanged. -/
theorem spec_C4_insufficient_input (env : Env) (s : AppState)
    (h : s.uploadedImages.length < 2) :
    stitchImages env s = (s, [Event.insufficientImages]) := by
  simp [stitchImages, h]

/-- Witness for C4 at both a 0-image and a 1-image state: the two cases
behave identically. -/
theorem spec_C4_witness :
    stitchImages { mainCtx := true, resizeCtx := fun _ => true }
        { uploadedImages := [],
          stitchedOutput := none,
          isStitching := false,
          layoutSelected := Layout.Horizontal,
          backgroundSelected := BgMode.Transparent,
          backgroundColor := ("#ffffff"),
          adjustSizeSelected := SizePolicy.None } =
      ({ uploadedImages := [],
          stitchedOutput := none,
          isStitching := false,
          layoutSelected := Layout.Horizontal,
          backgroundSelected := BgMode.Transparent,
          backgroundColor := ("#ffffff"),
          adjustSizeSelected := SizePolicy.None },
        [Event.insufficientImages]) ∧
    stitchImages { mainCtx := true, resizeCtx := fun _ => true }
        { uploadedImages := [{ width := 100, height := 50 }],
          stitchedOutput := none,
          isStitching := false,
          layoutSelected := Layout.Horizontal,
          backgroundSelected := BgMode.Transparent,
          backgroundColor := ("#ffffff"),
          adjustSizeSelected := SizePolicy.None } =
      ({ uploadedImages := [{ width := 100, height := 50 }],
          stitchedOutput := none,
          isStitching := false,
          layoutSelected := Layout.Horizontal,
          backgroundSelected := BgMode.Transparent,
          backgroundColor := ("#ffffff"),
          adjustSizeSelected := SizePolicy.None },
        [Event.insufficientImages]) :=
  ⟨spec_C4_insufficient_input _ _ (by decide),
   spec_C4_insufficient_input _ _ (by decide)⟩

/-- C1: on every successful composite the output canvas bounds are, for
Horizontal layout, the sum of the (possibly resized) image widths by the
maximum of their heights, and for Vertical layout the maximum of the widths
by the sum of the heights (the maximum is characterized as an attained
upper bound). -/
theorem spec_C1_canvas_bounds (env : Env) (s : AppState)
    (h2 : 2 ≤ s.uploadedImages.length) (hctx : env.mainCtx = true) :
    ∃ c : Composite,
      (stitchImages env s).1.stitchedOutput = some c ∧
      (s.layoutSelected = Layout.Horizontal →
        c.width =
          ((adjustImages env s.layoutSelected s.adjustSizeSelected
              s.uploadedImages).map Img.width).sum ∧
        c.height ∈
          (adjustImages env s.layoutSelected s.adjustSizeSelected
              s.uploadedImages).map Img.height ∧
        ∀ x ∈ (adjustImages env s.layoutSelected s.adjustSizeSelected
              s.uploadedImages).map Img.height, x ≤ c.height) ∧
      (s.layoutSelected = Layout.Vertical →
        c.height =
          ((adjustImages env s.layoutSelected s.adjustSizeSelected
              s.uploadedImages).map Img.height).sum ∧
        c.width ∈
          (adjustImages env s.layoutSelected s.adjustSizeSelected
              s.uploadedImages).map Img.width ∧
        ∀ x ∈ (adjustImages env s.layoutSelected s.adjustSizeSelected
              s.uploadedImages).map Img.width, x ≤ c.width) := by
  have hlen :=
    adjustImages_length env s.layoutSelected s.adjustSizeSelected
      s.uploadedImages
  have hne :
      adjustImages env s.layoutSelected s.adjustSizeSelected
        s.uploadedImages ≠ [] := by
    intro h
    rw [h] at hlen
    simp only [List.length_nil] at hlen
    omega
  rw [stitchImages_success env s h2 hctx]
  refine ⟨_, rfl, fun hl => ?_, fun hl => ?_⟩
  · rw [hl] at hne ⊢
    refine ⟨?_, ?_, ?_⟩
    · show totalWidth Layout.Horizontal _ = _
      simp only [totalWidth]
      rw [foldl_add_eq_sum Img.width _ 0, zero_add]
    · show totalHeight Layout.Horizontal _ ∈ _
      simp only [totalHeight]
      exact listMax_mem (fun h => hne (List.map_eq_nil_iff.mp h))
    · intro x hx
      show x ≤ totalHeight Layout.Horizontal _
      simp only [totalHeight]
      exact le_listMax hx
  · rw [hl] at hne ⊢
    refine ⟨?_, ?_, ?_⟩
    · show totalHeight Layout.Vertical _ = _
      simp only [totalHeight]
      rw [foldl_add_eq_sum Img.height _ 0, zero_add]
    · show totalWidth Layout.Vertical _ ∈ _
      simp only [totalWidth]
      exact listMax_mem (fun h => hne (List.map_eq_nil_iff.mp h))
    · intro x hx
      show x ≤ totalWidth Layout.Vertical _
      simp only [totalWidth]
      exact le_listMax hx

/-- Witness for C1 at the scenario state ([100×50, 80×60], Horizontal,
policy "None"). -/
theorem spec_C1_witness :
    (2 ≤ scenarioState.uploadedImages.length ∧ envAll.mainCtx = true) ∧
    (∃ c : Composite,
      (stitchImages envAll scenarioState).1.stitchedOutput = some c ∧
      (scenarioState.layoutSelected = Layout.Horizontal →
        c.width =
          ((adjustImages envAll scenarioState.layoutSelected
              scenarioState.adjustSizeSelected
              scenarioState.uploadedImages).map Img.width).sum ∧
        c.height ∈
          (adjustImages envAll scenarioState.layoutSelected
              scenarioState.adjustSizeSelected
              scenarioState.uploadedImages).map Img.height ∧
        ∀ x ∈ (adjustImages envAll scenarioState.layoutSelected
              scenarioState.adjustSizeSelected
              scenarioState.uploadedImages).map Img.height, x ≤ c.height) ∧
      (scenarioState.layoutSelected = Layout.Vertical →
        c.height =
          ((adjustImages envAll scenarioState.layoutSelected
              scenarioState.adjustSizeSelected
              scenarioState.uploadedImages).map Img.height).sum ∧
        c.width ∈
          (adjustImages envAll scenarioState.layoutSelected
              scenarioState.adjustSizeSelected
              scenarioState.uploadedImages).map Img.width ∧
        ∀ x ∈ (adjustImages envAll scenarioState.layoutSelected
              scenarioState.adjustSizeSelected
              scenarioState.uploadedImages).map Img.width, x ≤ c.width)) :=
  ⟨⟨by decide, by decide⟩,
    spec_C1_canvas_bounds envAll scenarioState (by decide) (by decide)⟩

/-- C2: the resize pass is skipped entirely for policy "None"; for "Min"
(resp. "Max") every image's cross-axis extent becomes the minimum (resp.
maximum) extent `T` over all inputs (characterized as a member and lower
resp. upper bound), and the along-axis extent becomes the original
along-axis extent scaled by `T` over the original cross-axis extent. -/
theorem spec_C2_resize_policy (env : Env) (layout : Layout)
    (policy : SizePolicy) (images : List Img)
    (h2 : 2 ≤ images.length)
    (hctx : ∀ i, env.resizeCtx i = true)
    (_hpos : ∀ img ∈ images, 0 < img.width ∧ 0 < img.height) :
    (policy = SizePolicy.None →
      adjustImages env layout policy images = images) ∧
    (policy ≠ SizePolicy.None → layout = Layout.Horizontal →
      ∃ T : ℚ,
        T ∈ images.map Img.height ∧
        (policy = SizePolicy.Min → ∀ x ∈ images.map Img.height, T ≤ x) ∧
        (policy = SizePolicy.Max → ∀ x ∈ images.map Img.height, x ≤ T) ∧
        ∀ k orig, images.get? k = some orig →
          (adjustImages env layout policy images).get? k =
            some { width := orig.width * T / orig.height, height := T }) ∧
    (policy ≠ SizePolicy.None → layout = Layout.Vertical →
      ∃ T : ℚ,
        T ∈ images.map Img.width ∧
        (policy = SizePolicy.Min → ∀ x ∈ images.map Img.width, T ≤ x) ∧
        (policy = SizePolicy.Max → ∀ x ∈ images.map Img.width, x ≤ T) ∧
        ∀ k orig, images.get? k = some orig →
          (adjustImages env layout policy images).get? k =
            some { width := T, height := orig.height * T / orig.width }) := by
  have hne : images ≠ [] := by
    intro h
    rw [h] at h2
    simp at h2
  refine ⟨fun hp => by simp [adjustImages, hp], ?_, ?_⟩
  · intro hp hl
    subst hl
    cases policy with
    | None => exact absurd rfl hp
    | Min =>
        refine ⟨listMin (images.map Img.height),
          listMin_mem (fun h => hne (List.map_eq_nil_iff.mp h)),
          fun _ x hx => listMin_le hx,
          fun h => absurd h (by decide), ?_⟩
        intro k orig hk
        rw [adjustImages_get?_of_ne env _ _ images hp k orig hk]
        simp only [adjustOne, hctx k]
        simp [Img.mk.injEq]
        ring
    | Max =>
        refine ⟨listMax (images.map Img.height),
          listMax_mem (fun h => hne (List.map_eq_nil_iff.mp h)),
          fun h => absurd h (by decide),
          fun _ x hx => le_listMax hx, ?_⟩
        intro k orig hk
        rw [adjustImages_get?_of_ne env _ _ images hp k orig hk]
        simp only [adjustOne, hctx k]
        simp [Img.mk.injEq]
        ring
  · intro hp hl
    subst hl
    cases policy with
    | None => exact absurd rfl hp
    | Min =>
        refine ⟨listMin (images.map Img.width),
          listMin_mem (fun h => hne (List.map_eq_nil_iff.mp h)),
          fun _ x hx => listMin_le hx,
          fun h => absurd h (by decide), ?_⟩
        intro k orig hk
        rw [adjustImages_get?_of_ne env _ _ images hp k orig hk]
        simp only [adjustOne, hctx k]
        simp [Img.mk.injEq, div_div_eq_mul_div]
        ring
    | Max =>
        refine ⟨listMax (images.map Img.width),
          listMax_mem (fun h => hne (List.map_eq_nil_iff.mp h)),
          fun h => absurd h (by decide),
          fun _ x hx => le_listMax hx, ?_⟩
        intro k orig hk
        rw [adjustImages_get?_of_ne env _ _ images hp k orig hk]
        simp only [adjustOne, hctx k]
        simp [Img.mk.injEq, div_div_eq_mul_div]
        ring

/-- Witness for C2 at the spec's Max scenario: images [100×50, 80×60],
Horizontal layout, policy "Max" resizes the first image to 120×60 and keeps
the second at 80×60. -/
theorem spec_C2_witness :
    (∃ T : ℚ,
      T ∈ ([imgA, imgB] : List Img).map Img.height ∧
      (SizePolicy.Max = SizePolicy.Min →
        ∀ x ∈ ([imgA, imgB] : List Img).map Img.height, T ≤ x) ∧
      (SizePolicy.Max = SizePolicy.Max →
        ∀ x ∈ ([imgA, imgB] : List Img).map Img.height, x ≤ T) ∧
      ∀ k orig, ([imgA, imgB] : List Img).get? k = some orig →
        (adjustImages envAll Layout.Horizontal SizePolicy.Max
            [imgA, imgB]).get? k =
          some { width := orig.width * T / orig.height, height := T }) ∧
    adjustImages envAll Layout.Horizontal SizePolicy.Max [imgA, imgB] =
      [{ width := 120, height := 60 }, { width := 80, height := 60 }] :=
  ⟨(spec_C2_resize_policy envAll Layout.Horizontal SizePolicy.Max
      [imgA, imgB] (by decide) (fun _ => rfl)
      (by
        intro img h
        simp only [List.mem_cons, List.not_mem_nil, or_false] at h
        rcases h with rfl | rfl <;> exact ⟨by norm_num [imgA, imgB], by norm_num [imgA, imgB]⟩)).2.1
      (by decide) rfl,
    by
      simp [adjustImages, adjustFrom, adjustOne, envAll, imgA, imgB, listMax]
      norm_num [max_def]⟩

/-- C5: on every successful composite the drawing commands are the
background fill followed by the (possibly resized) images in input order,
the k-th image being drawn at an offset along the concatenation axis equal
to the sum of the along-axis extents of the earlier images (starting at 0)
and at 0 on the cross-axis; in particular the scenario
[100×50, 80×60], Horizontal, policy "None" yields a 180×60 output with the
first image at (0,0) and the second at (100,0). -/
theorem spec_C5_placement (env : Env) (s : AppState)
    (h2 : 2 ≤ s.uploadedImages.length) (hctx : env.mainCtx = true) :
    (∃ c : Composite,
      (stitchImages env s).1.stitchedOutput = some c ∧
      c.ops =
        backgroundOps s.backgroundSelected s.backgroundColor c.width
            c.height ++
          placeImages s.layoutSelected
            (adjustImages env s.layoutSelected s.adjustSizeSelected
              s.uploadedImages) ∧
      ∀ k img,
        (adjustImages env s.layoutSelected s.adjustSizeSelected
            s.uploadedImages).get? k = some img →
        (s.layoutSelected = Layout.Horizontal →
          (placeImages Layout.Horizontal
              (adjustImages env s.layoutSelected s.adjustSizeSelected
                s.uploadedImages)).get? k =
            some (DrawOp.drawImage img
              ((((adjustImages env s.layoutSelected s.adjustSizeSelected
                  s.uploadedImages).take k).map Img.width).sum) 0)) ∧
        (s.layoutSelected = Layout.Vertical →
          (placeImages Layout.Vertical
              (adjustImages env s.layoutSelected s.adjustSizeSelected
                s.uploadedImages)).get? k =
            some (DrawOp.drawImage img 0
              ((((adjustImages env s.layoutSelected s.adjustSizeSelected
                  s.uploadedImages).take k).map Img.height).sum)))) ∧
    (stitchImages envAll scenarioState).1.stitchedOutput =
      some { width := 180, height := 60,
             ops := [DrawOp.drawImage imgA 0 0,
                     DrawOp.drawImage imgB 100 0] } := by
  constructor
  · rw [stitchImages_success env s h2 hctx]
    refine ⟨_, rfl, rfl, ?_⟩
    intro k img hk
    constructor
    · intro hl
      unfold placeImages
      rw [placeFrom_get?_horizontal _ 0 k, hk]
      simp
    · intro hl
      unfold placeImages
      rw [placeFrom_get?_vertical _ 0 k, hk]
      simp
  · norm_num [stitchImages, scenarioState, envAll, adjustImages, totalWidth,
      totalHeight, listMax, backgroundOps, placeImages, placeFrom, imgA, imgB]

/-- Witness for C5 at the scenario state: the concrete 180×60 output with
the two placement commands. -/
theorem spec_C5_witness :
    2 ≤ scenarioState.uploadedImages.length ∧
    (stitchImages envAll scenarioState).1.stitchedOutput =
      some { width := 180, height := 60,
             ops := [DrawOp.drawImage imgA 0 0,
                     DrawOp.drawImage imgB 100 0] } :=
  ⟨by decide,
    (spec_C5_placement envAll scenarioState (by decide) (by decide)).2⟩

/-- C8: on every successful composite, a "Color" background issues exactly
one full-canvas fill with the normalized color, placed before every image
drawing command; a "Transparent" background issues no fill at all (the
drawing list holds image commands only). -/
theorem spec_C8_background_fill (env : Env) (s : AppState)
    (h2 : 2 ≤ s.uploadedImages.length) (hctx : env.mainCtx = true) :
    ∃ c : Composite,
      (stitchImages env s).1.stitchedOutput = some c ∧
      (s.backgroundSelected = BgMode.Color →
        c.ops =
          DrawOp.fillRect (normalizeColor s.backgroundColor) 0 0 c.width
              c.height ::
            placeImages s.layoutSelected
              (adjustImages env s.layoutSelected s.adjustSizeSelected
                s.uploadedImages) ∧
        ∀ op ∈ placeImages s.layoutSelected
            (adjustImages env s.layoutSelected s.adjustSizeSelected
              s.uploadedImages),
          ∃ img x y, op = DrawOp.drawImage img x y) ∧
      (s.backgroundSelected = BgMode.Transparent →
        c.ops =
          placeImages s.layoutSelected
            (adjustImages env s.layoutSelected s.adjustSizeSelected
              s.uploadedImages) ∧
        ∀ op ∈ c.ops, ∃ img x y, op = DrawOp.drawImage img x y) := by
  rw [stitchImages_success env s h2 hctx]
  refine ⟨_, rfl, ?_, ?_⟩
  · intro hb
    refine ⟨?_, placeFrom_all_draw s.layoutSelected _ 0⟩
    show backgroundOps s.backgroundSelected s.backgroundColor _ _ ++
        placeImages s.layoutSelected _ = _
    rw [hb]
    rfl
  · intro hb
    have hops :
        backgroundOps s.backgroundSelected s.backgroundColor
            (totalWidth s.layoutSelected
              (adjustImages env s.layoutSelected s.adjustSizeSelected
                s.uploadedImages))
            (totalHeight s.layoutSelected
              (adjustImages env s.layoutSelected s.adjustSizeSelected
                s.uploadedImages)) ++
          placeImages s.layoutSelected
            (adjustImages env s.layoutSelected s.adjustSizeSelected
              s.uploadedImages) =
          placeImages s.layoutSelected
            (adjustImages env s.layoutSelected s.adjustSizeSelected
              s.uploadedImages) := by
      rw [hb]
      rfl
    refine ⟨hops, ?_⟩
    intro op hop
    have hop' : op ∈ placeImages s.layoutSelected
        (adjustImages env s.layoutSelected s.adjustSizeSelected
          s.uploadedImages) := by
      rw [← hops]
      exact hop
    exact placeFrom_all_draw s.layoutSelected _ 0 op hop'

/-- Witness for C8 at the scenario state (Transparent background: no fill
command at all). -/
theorem spec_C8_witness :
    2 ≤ scenarioState.uploadedImages.length ∧
    (∃ c : Composite,
      (stitchImages envAll scenarioState).1.stitchedOutput = some c ∧
      (scenarioState.backgroundSelected = BgMode.Transparent →
        c.ops =
          placeImages scenarioState.layoutSelected
            (adjustImages envAll scenarioState.layoutSelected
              scenarioState.adjustSizeSelected
              scenarioState.uploadedImages) ∧
        ∀ op ∈ c.ops, ∃ img x y, op = DrawOp.drawImage img x y)) :=
  ⟨by decide, by
    obtain ⟨c, h1, _, h3⟩ :=
      spec_C8_background_fill envAll scenarioState (by decide) (by decide)
    exact ⟨c, h1, h3⟩⟩

/-- C7: the busy flag is cleared after every composite invocation: on the
paths that enter the try/finally block (at least 2 images) the `finally`
clause leaves `isStitching = false` unconditionally, and the early-return
path (fewer than 2 images) never sets the flag, so an invocation starting
from a quiescent state also ends with it cleared. -/
theorem spec_C7_busy_flag_cleared (env : Env) (s : AppState) :
    (2 ≤ s.uploadedImages.length →
      (stitchImages env s).1.isStitching = false) ∧
    (s.isStitching = false → (stitchImages env s).1.isStitching = false) := by
  constructor
  · intro h2
    have hlen : ¬ s.uploadedImages.length < 2 := by omega
    cases hc : env.mainCtx <;> simp [stitchImages, hlen, hc]
  · intro h
    by_cases hlen : s.uploadedImages.length < 2
    · simp [stitchImages, hlen, h]
    · cases hc : env.mainCtx <;> simp [stitchImages, hlen, hc]

/-- Witness for C7 at the scenario state with every context available. -/
theorem spec_C7_witness :
    2 ≤ scenarioState.uploadedImages.length ∧
    (stitchImages envAll scenarioState).1.isStitching = false :=
  ⟨by decide, (spec_C7_busy_flag_cleared envAll scenarioState).1 (by decide)⟩

/-- Counterexample to C3 as stated: removing one of two images leaves a
single image (fewer than 2) and clears the output, but the background stays
"Color" and the size policy stays "Max" — the reset happens only when zero
images remain. -/
theorem spec_C3_counterexample :
    (removeImage envAll 0 coloredState).1.uploadedImages.length < 2 ∧
    (removeImage envAll 0 coloredState).1.stitchedOutput = none ∧
    (removeImage envAll 0 coloredState).1.backgroundSelected ≠
      BgMode.Transparent ∧
    (removeImage envAll 0 coloredState).1.adjustSizeSelected ≠
      SizePolicy.None := by
  refine ⟨?_, ?_, ?_, ?_⟩ <;> decide

/-- C3 amended: when a removal leaves fewer than 2 images the output is
cleared and the insufficient-input error is signalled instead of
compositing; the size policy and background are reset to "None" /
"Transparent" only when zero images remain, and keep their previous values
when exactly one image remains. -/
theorem spec_C3_amended (env : Env) (i : Nat) (s : AppState)
    (h : (s.uploadedImages.eraseIdx i).length < 2) :
    (removeImage env i s).1.stitchedOutput = none ∧
    (removeImage env i s).2 = [Event.insufficientImages] ∧
    ((s.uploadedImages.eraseIdx i).length = 0 →
      (removeImage env i s).1.backgroundSelected = BgMode.Transparent ∧
      (removeImage env i s).1.adjustSizeSelected = SizePolicy.None) ∧
    (0 < (s.uploadedImages.eraseIdx i).length →
      (removeImage env i s).1.backgroundSelected = s.backgroundSelected ∧
      (removeImage env i s).1.adjustSizeSelected = s.adjustSizeSelected) := by
  by_cases h0 : (s.uploadedImages.eraseIdx i).length = 0
  · have hrw : removeImage env i s =
        stitchImages env
          { s with
              uploadedImages := s.uploadedImages.eraseIdx i,
              stitchedOutput := none,
              backgroundSelected := BgMode.Transparent,
              adjustSizeSelected := SizePolicy.None } := by
      simp [removeImage, h0]
    rw [hrw, stitchImages_insufficient env _ h]
    exact ⟨rfl, rfl, fun _ => ⟨rfl, rfl⟩, fun hp => absurd h0 (by omega)⟩
  · have hrw : removeImage env i s =
        stitchImages env
          { s with
              uploadedImages := s.uploadedImages.eraseIdx i,
              stitchedOutput := none } := by
      simp [removeImage, h0]
    rw [hrw, stitchImages_insufficient env _ h]
    exact ⟨rfl, rfl, fun hz => absurd hz h0, fun _ => ⟨rfl, rfl⟩⟩

/-- Witness for the amended C3 at the colored two-image state. -/
theorem spec_C3_witness :
    (coloredState.uploadedImages.eraseIdx 0).length < 2 ∧
    (removeImage envAll 0 coloredState).1.stitchedOutput = none ∧
    (removeImage envAll 0 coloredState).2 = [Event.insufficientImages] :=
  ⟨by decide,
   (spec_C3_amended envAll 0 coloredState (by decide)).1,
   (spec_C3_amended envAll 0 coloredState (by decide)).2.1⟩

/-- Counterexample to C6 as stated: with the scratch canvas of image 0
unable to yield a context (while the output canvas can), the composite does
not abort — it emits no error, silently keeps image 0 at its original
10×40 size despite the "Min" policy, and replaces the previous output. -/
theorem spec_C6_counterexample :
    envNoResize0.resizeCtx 0 = false ∧
    (stitchImages envNoResize0 minPolicyState).2 = [] ∧
    (adjustImages envNoResize0 minPolicyState.layoutSelected
        minPolicyState.adjustSizeSelected
        minPolicyState.uploadedImages).get? 0 =
      some { width := 10, height := 40 } ∧
    minPolicyState.stitchedOutput = none ∧
    (stitchImages envNoResize0 minPolicyState).1.stitchedOutput ≠ none := by
  refine ⟨rfl, ?_, ?_, rfl, ?_⟩
  · simp [stitchImages, minPolicyState, envNoResize0]
  · simp [adjustImages, adjustFrom, adjustOne, minPolicyState, envNoResize0]
  · simp [stitchImages, minPolicyState, envNoResize0]

/-- C6 amended: a missing context on the *output* canvas makes the
composite throw, the exception is reported and the previous output is left
unchanged; a missing context on a per-image *resize* canvas, however, is
silently ignored and that image passes through the resize pass at its
original dimensions. -/
theorem spec_C6_amended (env : Env) (s : AppState)
    (h2 : 2 ≤ s.uploadedImages.length) :
    (env.mainCtx = false →
      stitchImages env s =
        ({ s with isStitching := false },
          [Event.stitchingFailed ("Failed to get canvas context")])) ∧
    (env.mainCtx = false →
      (stitchImages env s).1.stitchedOutput = s.stitchedOutput) ∧
    (∀ i img, env.resizeCtx i = false →
      s.uploadedImages.get? i = some img →
      (adjustImages env s.layoutSelected s.adjustSizeSelected
          s.uploadedImages).get? i = some img) := by
  have hlen : ¬ s.uploadedImages.length < 2 := by omega
  refine ⟨fun hm => by simp [stitchImages, hlen, hm],
    fun hm => by simp [stitchImages, hlen, hm], ?_⟩
  intro i img hr hg
  unfold adjustImages
  by_cases hp : s.adjustSizeSelected = SizePolicy.None
  · rw [if_pos hp]
    exact hg
  · rw [if_neg hp, adjustFrom_get? env _ _ _ _ 0 i, hg]
    simp [adjustOne, hr]

/-- Witness for the amended C6: main-context failure leaves the scenario
state's output unchanged, and a resize-context failure passes image 0 of the
Min-policy state through unresized. -/
theorem spec_C6_witness :
    2 ≤ scenarioState.uploadedImages.length ∧
    (stitchImages envNoMain scenarioState).1.stitchedOutput =
      scenarioState.stitchedOutput ∧
    (adjustImages envNoResize0 minPolicyState.layoutSelected
        minPolicyState.adjustSizeSelected
        minPolicyState.uploadedImages).get? 0 =
      some { width := 10, height := 40 } :=
  ⟨by decide,
   (spec_C6_amended envNoMain scenarioState (by decide)).2.1 rfl,
   (spec_C6_amended envNoResize0 minPolicyState (by decide)).2.2 0
     { width := 10, height := 40 } rfl (by decide)⟩

/-- C9: `moveImageUp` at index 0 or below and `moveImageDown` at the last
index or beyond leave the whole state (image list and stored output)
unchanged and emit nothing; at the in-range indices the template can
produce they swap the image with its neighbor, so the image list stays a
permutation of the previous one (in particular of the same length and
multiset). -/
theorem spec_C9_move_handlers (env : Env) (s : AppState) (i : Int) :
    (i ≤ 0 → moveImageUp env i s = (s, [])) ∧
    ((s.uploadedImages.length : Int) - 1 ≤ i →
      moveImageDown env i s = (s, [])) ∧
    (0 < i → i < (s.uploadedImages.length : Int) →
      ((moveImageUp env i s).1.uploadedImages).Perm s.uploadedImages ∧
      (moveImageUp env i s).1.uploadedImages.length =
        s.uploadedImages.length) ∧
    (0 ≤ i → i < (s.uploadedImages.length : Int) - 1 →
      ((moveImageDown env i s).1.uploadedImages).Perm s.uploadedImages ∧
      (moveImageDown env i s).1.uploadedImages.length =
        s.uploadedImages.length) := by
  refine ⟨?_, ?_, ?_, ?_⟩
  · intro h
    unfold moveImageUp
    rw [if_neg (by omega)]
  · intro h
    unfold moveImageDown
    rw [if_neg (by omega)]
  · intro h0 hl
    have hperm : (swapJs s.uploadedImages i (i - 1)).Perm s.uploadedImages :=
      swapJs_perm_up _ i h0 hl
    unfold moveImageUp
    rw [if_pos h0]
    rw [(stitchImages_preserves env _).1]
    exact ⟨hperm, hperm.length_eq⟩
  · intro h0 hl
    have hperm : (swapJs s.uploadedImages i (i + 1)).Perm s.uploadedImages :=
      swapJs_perm_down _ i h0 hl
    unfold moveImageDown
    rw [if_pos (by omega)]
    rw [(stitchImages_preserves env _).1]
    exact ⟨hperm, hperm.length_eq⟩

/-- Witness for C9 at the scenario state: out-of-range up/down are no-ops
and in-range up/down permute the two images. -/
theorem spec_C9_witness :
    moveImageUp envAll 0 scenarioState = (scenarioState, []) ∧
    moveImageDown envAll 1 scenarioState = (scenarioState, []) ∧
    ((moveImageUp envAll 1 scenarioState).1.uploadedImages).Perm
      scenarioState.uploadedImages ∧
    ((moveImageDown envAll 0 scenarioState).1.uploadedImages).Perm
      scenarioState.uploadedImages :=
  ⟨(spec_C9_move_handlers envAll scenarioState 0).1 (by decide),
   (spec_C9_move_handlers envAll scenarioState 1).2.1 (by decide),
   ((spec_C9_move_handlers envAll scenarioState 1).2.2.1 (by decide)
     (by decide)).1,
   ((spec_C9_move_handlers envAll scenarioState 0).2.2.2 (by decide)
     (by decide)).1⟩

/-- C10: with no stored output (empty URL) the download handler reports
"No Image", creates no link and leaves the state unchanged; with a stored
output it creates exactly the timestamped link for it. -/
theorem spec_C10_download_requires_output (now : Nat) (s : AppState) :
    (s.stitchedOutput = none →
      downloadStitchedImage now s = (s, none, [Event.noImage])) ∧
    (∀ c, s.stitchedOutput = some c →
      downloadStitchedImage now s =
        (s,
          some { href := c,
                 filename :=
                   ("stitched-image-") ++ toString now ++ (".png") },
          [Event.downloadStarted])) := by
  constructor
  · intro h
    simp [downloadStitchedImage, h]
  · intro c h
    simp [downloadStitchedImage, h]

/-- Witness for C10: the output-less scenario state yields only the
"No Image" report, and the colored state with a stored output yields its
download link. -/
theorem spec_C10_witness :
    downloadStitchedImage 0 scenarioState =
      (scenarioState, none, [Event.noImage]) ∧
    downloadStitchedImage 0 coloredState =
      (coloredState,
        some { href := { width := 200, height := 60, ops := [] },
               filename := ("stitched-image-") ++ toString 0 ++ (".png") },
        [Event.downloadStarted]) :=
  ⟨(spec_C10_download_requires_output 0 scenarioState).1 rfl,
   (spec_C10_download_requires_output 0 coloredState).2
     { width := 200, height := 60, ops := [] } rfl⟩

end ImageTools
